import Mathlib

/-!
# Verification of the quantitative scoring and backtesting engine

Shallow embedding of the engine in `src/app.py`: the indicator calculator
(`calculate_indicators`), the backtest (`run_simple_backtest`), the five-factor
diagnosis (`ai_diagnosis`) and the advice thresholds, together with the data
model they operate on.

Pandas/NumPy float cells are modelled by `PFloat`: an exact rational together
with the two IEEE-754 special values that the engine can actually produce,
`nan` (pandas missing value / 0÷0) and signed infinity (finite ÷ 0).  All
comparisons involving `nan` are false, as in IEEE-754, which is what makes
pandas expressions such as `np.where(df[MA5] > df[MA20], 1, 0)` silently treat
a not-yet-available indicator as "no signal".  A DataFrame is an ordered
association list from column names to columns, a column being a list of cells.
-/

/-- A pandas/NumPy float cell: an exact rational, a signed infinity
(`inf true` = +∞, `inf false` = −∞), or the missing value `nan`. -/
inductive PFloat where
  | nan : PFloat
  | inf : Bool → PFloat
  | val : ℚ → PFloat
deriving DecidableEq, Repr

/-- IEEE-754 addition on cells: `nan` absorbs, opposite infinities give `nan`. -/
def padd : PFloat → PFloat → PFloat
  | .nan, _ => .nan
  | _, .nan => .nan
  | .inf s, .inf t => if s = t then .inf s else .nan
  | .inf s, .val _ => .inf s
  | .val _, .inf t => .inf t
  | .val a, .val b => .val (a + b)

/-- IEEE-754 negation on cells. -/
def pneg : PFloat → PFloat
  | .nan => .nan
  | .inf s => .inf (!s)
  | .val a => .val (-a)

/-- IEEE-754 subtraction on cells. -/
def psub (a b : PFloat) : PFloat := padd a (pneg b)

/-- IEEE-754 multiplication on cells: `nan` absorbs, `∞ × 0 = nan`,
otherwise signs combine. -/
def pmul : PFloat → PFloat → PFloat
  | .nan, _ => .nan
  | _, .nan => .nan
  | .inf s, .inf t => .inf (s = t)
  | .inf s, .val a => if a = 0 then .nan else .inf (s = decide (0 < a))
  | .val a, .inf t => if a = 0 then .nan else .inf (t = decide (0 < a))
  | .val a, .val b => .val (a * b)

/-- IEEE-754 division on cells: `nan` absorbs, `0/0 = nan`, a nonzero finite
numerator over zero gives a signed infinity (zero is +0 here, as produced by
pandas), a finite numerator over an infinity gives 0. -/
def pdiv : PFloat → PFloat → PFloat
  | .nan, _ => .nan
  | _, .nan => .nan
  | .inf _, .inf _ => .nan
  | .inf s, .val b => if b < 0 then .inf (!s) else .inf s
  | .val _, .inf _ => .val 0
  | .val a, .val b =>
      if b = 0 then (if a = 0 then .nan else .inf (decide (0 < a)))
      else .val (a / b)

/-- IEEE-754 strict order on cells: any comparison with `nan` is false. -/
def plt : PFloat → PFloat → Bool
  | .nan, _ => false
  | _, .nan => false
  | .inf s, .inf t => !s && t
  | .inf s, .val _ => !s
  | .val _, .inf t => t
  | .val a, .val b => decide (a < b)

/-- `a > b` on cells, false whenever `nan` is involved. -/
def pgt (a b : PFloat) : Bool := plt b a

/-- IEEE-754 absolute value on cells. -/
def pabs : PFloat → PFloat
  | .nan => .nan
  | .inf _ => .inf true
  | .val a => .val |a|

/-- Python `min(a, b)`: returns `b` when `b < a`, else `a` (so `min(nan, x)`
is `nan`, since the comparison with `nan` is false). -/
def pmin (a b : PFloat) : PFloat := if plt b a then b else a

/-- A DataFrame column: one float cell per row. -/
abbrev Column := List PFloat

/-- A pandas DataFrame: ordered association list from column names to
columns.  In the engine all columns always have the same length (one cell
per bar). -/
abbrev DataFrame := List (String × Column)

/-- `df[c]`: the column named `c` (the engine only reads columns it knows
exist; a missing name yields the empty column). -/
def getCol (df : DataFrame) (c : String) : Column :=
  ((df.find? (fun p => p.1 == c)).map (fun p => p.2)).getD []

/-- `df[c] = v`: replace the column named `c` in place, or append it at the
end when absent — pandas column-assignment semantics. -/
def setCol : DataFrame → String → Column → DataFrame
  | [], c, v => [(c, v)]
  | p :: t, c, v => if p.1 == c then (c, v) :: t else p :: setCol t c v

/-- `df.empty`: true when the frame has no rows (or no columns at all). -/
def emptyDF (df : DataFrame) : Bool :=
  df.all (fun p => p.2.isEmpty)

/-- `series.rolling(k).mean()`: at position `i`, `nan` while fewer than `k`
bars are available (`i + 1 < k`), otherwise the mean of the trailing window
of `k` cells — a window containing `nan` propagates `nan` through the sum,
matching pandas with its default `min_periods = window`. -/
def rollingMean (k : ℕ) (xs : Column) : Column :=
  (List.range xs.length).map fun i =>
    if i + 1 < k then .nan
    else pdiv (((xs.drop (i + 1 - k)).take k).foldl padd (.val 0)) (.val (k : ℚ))

/-- `series.diff()`: first difference, `nan` at position 0. -/
def diffSeries (xs : Column) : Column :=
  (List.range xs.length).map fun i =>
    if i = 0 then .nan else psub (xs.getD i .nan) (xs.getD (i - 1) .nan)

/-- `series.ewm(span, adjust=False).mean()`, recursive form seeded by the
first non-`nan` value: `ema[i] = x[i]·α + ema[i−1]·(1−α)`; a `nan` input cell
yields `nan` and leaves the running value untouched, as in pandas. -/
def ewmGo (a : ℚ) : Option PFloat → Column → Column
  | _, [] => []
  | none, x :: xs =>
      if x = .nan then .nan :: ewmGo a none xs else x :: ewmGo a (some x) xs
  | some p, x :: xs =>
      if x = .nan then .nan :: ewmGo a (some p) xs
      else
        let c := padd (pmul x (.val a)) (pmul p (.val (1 - a)))
        c :: ewmGo a (some c) xs

/-- `series.ewm(span=s, adjust=False).mean()` with smoothing α = 2/(s+1). -/
def ewm (s : ℕ) (xs : Column) : Column :=
  ewmGo (2 / ((s : ℚ) + 1)) none xs

/-- `series.pct_change()`: `(x[i] − x[i−1]) / x[i−1]`, `nan` at position 0. -/
def pctChange (xs : Column) : Column :=
  (List.range xs.length).map fun i =>
    if i = 0 then .nan
    else pdiv (psub (xs.getD i .nan) (xs.getD (i - 1) .nan)) (xs.getD (i - 1) .nan)

/-- `series.shift(1)`: `nan` at position 0, then the previous cell. -/
def shift1 (xs : Column) : Column :=
  (List.range xs.length).map fun i =>
    if i = 0 then .nan else xs.getD (i - 1) .nan

/-- `series.cumprod()` with pandas default `skipna=True`: a `nan` cell yields
`nan` without disturbing the running product. -/
def cumprodGo : PFloat → Column → Column
  | _, [] => []
  | acc, x :: xs =>
      if x = .nan then .nan :: cumprodGo acc xs
      else pmul acc x :: cumprodGo (pmul acc x) xs

/-- `(…).cumprod()`, running product started at 1. -/
def cumprod (xs : Column) : Column := cumprodGo (.val 1) xs

/-- `delta.where(delta > 0, 0)`: keep the cell where the condition holds, else
0; a `nan` condition counts as false, so `nan` cells become 0. -/
def gainCells (delta : Column) : Column :=
  delta.map fun d => if pgt d (.val 0) then d else .val 0

/-- `-delta.where(delta < 0, 0)`: keep the cell where it is a loss, else 0,
then negate elementwise. -/
def lossCells (delta : Column) : Column :=
  (delta.map fun d => if plt d (.val 0) then d else .val 0).map pneg

/-- `gain.rolling(14).mean()` over the gains of `close.diff()`. -/
def gainOf (close : Column) : Column :=
  rollingMean 14 (gainCells (diffSeries close))

/-- `loss.rolling(14).mean()` over the (negated) losses of `close.diff()`. -/
def lossOf (close : Column) : Column :=
  rollingMean 14 (lossCells (diffSeries close))

/-- `rs = gain / loss`, elementwise. -/
def rsOf (close : Column) : Column :=
  List.zipWith pdiv (gainOf close) (lossOf close)

/-- `RSI = 100 − 100/(1 + rs)`, elementwise. -/
def rsiOf (close : Column) : Column :=
  (rsOf close).map fun rs => psub (.val 100) (pdiv (.val 100) (padd (.val 1) rs))

/-- `np.where(ma5 > ma20, 1, 0)`, elementwise (a `nan` comparison is false,
giving 0: flat while either average is unavailable). -/
def signalCells (ma5 ma20 : Column) : Column :=
  List.zipWith (fun a b => if pgt a b then PFloat.val 1 else PFloat.val 0) ma5 ma20

/-- `DIF = exp12 − exp26`, the two EMAs of close. -/
def difOf (close : Column) : Column :=
  List.zipWith psub (ewm 12 close) (ewm 26 close)

/-- `DEA = DIF.ewm(span=9, adjust=False).mean()`. -/
def deaOf (close : Column) : Column := ewm 9 (difOf close)

/-- `MACD = 2 × (DIF − DEA)`, elementwise. -/
def macdOf (close : Column) : Column :=
  List.zipWith (fun a b => pmul (.val 2) (psub a b)) (difOf close) (deaOf close)

/-- `calculate_indicators` (src/app.py:65–87): returns the input frame
unchanged when empty, otherwise extends it with the MA5/MA20, MACD family and
RSI columns, all derived from `close`.  The Python function assigns the new
columns into the frame it was passed, so the returned frame is also the
post-call state of the caller's frame. -/
def calculate_indicators (df : DataFrame) : DataFrame :=
  if emptyDF df then df
  else
    let close := getCol df "close"
    let df1 := setCol df "MA5" (rollingMean 5 close)
    let df2 := setCol df1 "MA20" (rollingMean 20 close)
    let df3 := setCol df2 "DIF" (difOf close)
    let df4 := setCol df3 "DEA" (deaOf close)
    let df5 := setCol df4 "MACD" (macdOf close)
    let df6 := setCol df5 "RSI" (rsiOf close)
    df6

/-- `run_simple_backtest` (src/app.py:89–103): on an empty frame returns
`(0, empty frame)`; otherwise adds the signal, per-bar return, lagged
strategy return, and the two cumulative curves, then reports
`(cum_return[-1] − 1) × 100`, or 0 when the whole curve is null. -/
def run_simple_backtest (df : DataFrame) : PFloat × DataFrame :=
  if emptyDF df then (.val 0, [])
  else
    let df1 := setCol df "signal" (signalCells (getCol df "MA5") (getCol df "MA20"))
    let df2 := setCol df1 "pct_change" (pctChange (getCol df1 "close"))
    let df3 := setCol df2 "strategy_return"
      (List.zipWith pmul (getCol df2 "pct_change") (shift1 (getCol df2 "signal")))
    let df4 := setCol df3 "cum_return" (cumprod ((getCol df3 "strategy_return").map (padd (.val 1))))
    let df5 := setCol df4 "benchmark" (cumprod ((getCol df4 "pct_change").map (padd (.val 1))))
    let cr := getCol df5 "cum_return"
    let total :=
      if cr.all (fun x => x = .nan) then .val 0
      else pmul (psub (cr.getD (cr.length - 1) .nan) (.val 1)) (.val 100)
    (total, df5)

/-- The market-snapshot fields `ai_diagnosis` reads from its `row` argument:
`pe`, `change_pct`, and `turnover` (the source reads turnover through
`row.get` with default 0, so the field is always present after the provider
normalisation). -/
structure MarketQuote where
  pe : PFloat
  change_pct : PFloat
  turnover : PFloat

/-- `hist_df.iloc[-1][c]`: the last cell of column `c`. -/
def lastCell (df : DataFrame) (c : String) : PFloat :=
  (getCol df c).getD ((getCol df c).length - 1) .nan

/-- `'RSI' in hist_df.columns`. -/
def hasCol (df : DataFrame) (c : String) : Bool :=
  df.any (fun p => p.1 == c)

/-- `ai_diagnosis` (src/app.py:105–141): the five factor scores in source
order — valuation, trend, liquidity, momentum, sentiment — and their mean. -/
def ai_diagnosis (row : MarketQuote) (hist : DataFrame) : PFloat × List (String × PFloat) :=
  let valuation :=
    if pgt row.pe (.val 0) then psub (.val 100) (pmin row.pe (.val 100)) else .val 40
  let trend :=
    if emptyDF hist then PFloat.val 0
    else
      PFloat.val (50
        + (if pgt (lastCell hist "close") (lastCell hist "MA20") then 20 else 0)
        + (if pgt (lastCell hist "MA5") (lastCell hist "MA20") then 30 else 0))
  let money := pmin (pmul row.turnover (.val 10)) (.val 100)
  let momentum :=
    if !(emptyDF hist) && hasCol hist "RSI" then
      psub (.val 100) (pmul (pabs (psub (.val 50) (lastCell hist "RSI"))) (.val 2))
    else .val 50
  let sentiment := padd (.val 50) (pmul row.change_pct (.val 5))
  let scores := [("估值", valuation), ("趋势", trend), ("资金", money),
                 ("动量", momentum), ("情绪", sentiment)]
  (pdiv (scores.foldl (fun acc p => padd acc p.2) (.val 0)) (.val 5), scores)

/-- The advice thresholds (src/app.py:229–235): sequential ifs over the
composite score and the day's change; every comparison with a `nan` score is
false, so 观望 (watch) is the fall-through. -/
def advice (score change_pct : PFloat) : String :=
  if pgt score (.val 75) && plt change_pct (.val 5) then "建议关注 (优质且未暴涨)"
  else if pgt score (.val 60) then "持有/观察"
  else if plt score (.val 40) then "回避/卖出"
  else "观望"

/-- The history frame as the engine sees it, restricted to the one input
column the engine reads: `close` (real closing prices, never null). -/
def mkDF (closes : List ℚ) : DataFrame :=
  [("close", closes.map PFloat.val)]

/-- The backtest signal column as a function of close. -/
def signalOf (close : Column) : Column :=
  signalCells (rollingMean 5 close) (rollingMean 20 close)

/-- The strategy-return column as a function of close: per-bar return times
the one-bar-lagged signal. -/
def strategyOf (close : Column) : Column :=
  List.zipWith pmul (pctChange close) (shift1 (signalOf close))

/-- The cumulative strategy curve as a function of close. -/
def cumReturnOf (close : Column) : Column :=
  cumprod ((strategyOf close).map (padd (.val 1)))

theorem find?_cons_pos {α : Type} (f : α → Bool) (a : α) (l : List α) (h : f a = true) :
    List.find? f (a :: l) = some a := by
  simp [List.find?_cons, h]

theorem find?_cons_neg {α : Type} (f : α → Bool) (a : α) (l : List α) (h : f a = false) :
    List.find? f (a :: l) = List.find? f l := by
  simp [List.find?_cons, h]

theorem getCol_setCol_self (df : DataFrame) (c : String) (v : Column) :
    getCol (setCol df c v) c = v := by
  induction df with
  | nil =>
      show getCol [(c, v)] c = v
      rw [getCol, find?_cons_pos (fun x => x.1 == c) (c, v) [] (by simp)]
      rfl
  | cons p t ih =>
      rw [setCol]
      by_cases h : p.1 == c
      · rw [if_pos h, getCol, find?_cons_pos (fun x => x.1 == c) (c, v) t (by simp)]
        rfl
      · rw [if_neg h]
        have hf : (p.1 == c) = false := by simpa using h
        have h2 : getCol (p :: setCol t c v) c = getCol (setCol t c v) c := by
          rw [getCol, getCol, find?_cons_neg (fun x => x.1 == c) p (setCol t c v) hf]
        rw [h2]
        exact ih

theorem getCol_setCol_ne (df : DataFrame) (c d : String) (v : Column) (h : d ≠ c) :
    getCol (setCol df c v) d = getCol df d := by
  have hcd : (c == d) = false := beq_eq_false_iff_ne.2 fun h2 => h h2.symm
  induction df with
  | nil =>
      show getCol [(c, v)] d = getCol [] d
      rw [getCol, getCol, find?_cons_neg (fun x => x.1 == d) (c, v) [] hcd]
  | cons p t ih =>
      rw [setCol]
      by_cases hp : p.1 == c
      · rw [if_pos hp]
        have hp1 : p.1 = c := by simpa using hp
        have hpd : (p.1 == d) = false := by rw [hp1]; exact hcd
        rw [getCol, getCol, find?_cons_neg (fun x => x.1 == d) (c, v) t hcd,
            find?_cons_neg (fun x => x.1 == d) p t hpd]
      · rw [if_neg hp]
        cases hpd : (p.1 == d) with
        | false =>
            rw [getCol, getCol, find?_cons_neg (fun x => x.1 == d) p (setCol t c v) hpd,
                find?_cons_neg (fun x => x.1 == d) p t hpd]
            exact ih
        | true =>
            rw [getCol, getCol, find?_cons_pos (fun x => x.1 == d) p (setCol t c v) hpd,
                find?_cons_pos (fun x => x.1 == d) p t hpd]

theorem calc_mkDF (a : ℚ) (t : List ℚ) :
    calculate_indicators (mkDF (a :: t)) =
      [("close", List.map PFloat.val (a :: t)),
       ("MA5", rollingMean 5 (List.map PFloat.val (a :: t))),
       ("MA20", rollingMean 20 (List.map PFloat.val (a :: t))),
       ("DIF", difOf (List.map PFloat.val (a :: t))),
       ("DEA", deaOf (List.map PFloat.val (a :: t))),
       ("MACD", macdOf (List.map PFloat.val (a :: t))),
       ("RSI", rsiOf (List.map PFloat.val (a :: t)))] := rfl

theorem backtest_mkDF_strategy (a : ℚ) (t : List ℚ) :
    getCol (run_simple_backtest (calculate_indicators (mkDF (a :: t)))).2 "strategy_return" =
      strategyOf (List.map PFloat.val (a :: t)) := rfl

theorem backtest_mkDF_cum (a : ℚ) (t : List ℚ) :
    getCol (run_simple_backtest (calculate_indicators (mkDF (a :: t)))).2 "cum_return" =
      cumReturnOf (List.map PFloat.val (a :: t)) := rfl

theorem emptyDF_calc_mkDF (a : ℚ) (t : List ℚ) :
    emptyDF (calculate_indicators (mkDF (a :: t))) = false := by
  rw [calc_mkDF]; rfl

theorem run_simple_backtest_total (df : DataFrame) (h : emptyDF df = false) :
    (run_simple_backtest df).1 =
      if (getCol (run_simple_backtest df).2 "cum_return").all (fun x => x = PFloat.nan)
      then PFloat.val 0
      else pmul (psub ((getCol (run_simple_backtest df).2 "cum_return").getD
             ((getCol (run_simple_backtest df).2 "cum_return").length - 1) PFloat.nan)
             (.val 1)) (.val 100) := by
  rw [run_simple_backtest, if_neg (by simp [h])]

/-- C9 counterexample: on a single-bar series the equity curve is the
one-entry list holding `nan` (the undefined first-bar return), not the value
1 the claim states. -/
theorem single_bar_curve_not_one :
    getCol (run_simple_backtest (calculate_indicators (mkDF [10]))).2 "cum_return" = [PFloat.nan] ∧
    [PFloat.nan] ≠ [PFloat.val 1] := by decide

/-- C9 (amended): a single-bar series yields total_return = 0 through the
all-null branch and an equity curve of length 1 holding `nan` (not 1); an
empty series yields `(0, empty frame)`; no division fault is possible since
every operation is total. -/
theorem single_bar_backtest (q : ℚ) :
    (run_simple_backtest (calculate_indicators (mkDF [q]))).1 = .val 0 ∧
    getCol (run_simple_backtest (calculate_indicators (mkDF [q]))).2 "cum_return" = [PFloat.nan] ∧
    run_simple_backtest (calculate_indicators (mkDF [])) = (.val 0, []) := by
  refine ⟨?_, ?_, rfl⟩
  · rw [run_simple_backtest_total _ (emptyDF_calc_mkDF q []), backtest_mkDF_cum q []]
    rfl
  · rw [backtest_mkDF_cum q []]
    rfl

/-- C6 counterexample: the indicator calculator never produces an MA10
column — the output frame's columns are exactly close, MA5, MA20, DIF, DEA,
MACD, RSI. -/
theorem no_ma10_column :
    (calculate_indicators (mkDF [10])).map (fun p => p.1) =
      ["close", "MA5", "MA20", "DIF", "DEA", "MACD", "RSI"] ∧
    "MA10" ∉ (calculate_indicators (mkDF [10])).map (fun p => p.1) := by decide

/-- C7 counterexample: the call does not leave the input frame unmodified —
in the source the indicator columns are assigned into the frame that was
passed in, so the post-call state of the argument differs from its pre-call
state on any nonempty input. -/
theorem calc_extends_input_frame :
    calculate_indicators (mkDF [10]) ≠ mkDF [10] := by decide

/-- C7 (amended): the engine is deterministic and total; an empty frame is
returned as-is by `calculate_indicators` and mapped to `(0, empty)` by
`run_simple_backtest`; the close column the engine reads is never modified —
but the input frame itself is extended with indicator columns (in place in
the source), so it is not left unmodified. -/
theorem engine_no_side_effects (df : DataFrame) :
    (emptyDF df = true → calculate_indicators df = df) ∧
    getCol (calculate_indicators df) "close" = getCol df "close" ∧
    (emptyDF df = true → run_simple_backtest df = (.val 0, [])) := by
  refine ⟨fun h => ?_, ?_, fun h => ?_⟩
  · rw [calculate_indicators, if_pos h]
  · by_cases h : emptyDF df
    · rw [calculate_indicators, if_pos h]
    · have hcalc : calculate_indicators df =
          setCol (setCol (setCol (setCol (setCol (setCol df
            "MA5" (rollingMean 5 (getCol df "close")))
            "MA20" (rollingMean 20 (getCol df "close")))
            "DIF" (difOf (getCol df "close")))
            "DEA" (deaOf (getCol df "close")))
            "MACD" (macdOf (getCol df "close")))
            "RSI" (rsiOf (getCol df "close")) := by
        rw [calculate_indicators, if_neg h]
      rw [hcalc]
      rw [getCol_setCol_ne _ _ _ _ (by decide), getCol_setCol_ne _ _ _ _ (by decide),
          getCol_setCol_ne _ _ _ _ (by decide), getCol_setCol_ne _ _ _ _ (by decide),
          getCol_setCol_ne _ _ _ _ (by decide), getCol_setCol_ne _ _ _ _ (by decide)]
  · rw [run_simple_backtest, if_pos h]

/-- C7 witness: the empty frame is a concrete input satisfying the
hypotheses of the purity theorem. -/
theorem engine_no_side_effects_witness :
    emptyDF [] = true ∧ calculate_indicators [] = [] ∧
    run_simple_backtest [] = (.val 0, []) :=
  ⟨rfl, (engine_no_side_effects []).1 rfl, (engine_no_side_effects []).2.2 rfl⟩

/-- C10: a missing pe (NaN after coercion) falls into the `else` branch of
the valuation guard `pe > 0`, scoring 40 — the same default as pe ≤ 0 — and
never raises. -/
theorem pe_missing_default (row : MarketQuote) (hist : DataFrame) :
    (row.pe = PFloat.nan → ((ai_diagnosis row hist).2.getD 0 ("", PFloat.nan)).2 = .val 40) ∧
    (∀ q : ℚ, row.pe = .val q → q ≤ 0 →
      ((ai_diagnosis row hist).2.getD 0 ("", PFloat.nan)).2 = .val 40) := by
  constructor
  · intro h
    simp [ai_diagnosis, h, pgt, plt]
  · intro q hq hq0
    simp [ai_diagnosis, hq, pgt, plt, not_lt.2 hq0]

/-- C10 witness: a quote with pe = NaN and one with pe = −5 both score 40 on
valuation. -/
theorem pe_missing_default_witness :
    ((ai_diagnosis ⟨PFloat.nan, .val 0, .val 0⟩ []).2.getD 0 ("", PFloat.nan)).2 = .val 40 ∧
    ((ai_diagnosis ⟨.val (-5), .val 0, .val 0⟩ []).2.getD 0 ("", PFloat.nan)).2 = .val 40 :=
  ⟨(pe_missing_default ⟨PFloat.nan, .val 0, .val 0⟩ []).1 rfl,
   (pe_missing_default ⟨.val (-5), .val 0, .val 0⟩ []).2 (-5) rfl (by norm_num)⟩

/-- C5: the composite is the unweighted mean of exactly the five factor
scores, and the sentiment factor is `50 + change_pct × 5`, unclamped in both
directions: change_pct = 12 gives exactly 110 and change_pct = −15 gives
exactly −25. -/
theorem composite_five_factor_mean (row : MarketQuote) (hist : DataFrame) :
    (ai_diagnosis row hist).2.map (fun p => p.1) = ["估值", "趋势", "资金", "动量", "情绪"] ∧
    (ai_diagnosis row hist).1 =
      pdiv (((ai_diagnosis row hist).2.map (fun p => p.2)).foldl padd (.val 0)) (.val 5) ∧
    ((ai_diagnosis row hist).2.getD 4 ("", PFloat.nan)).2 =
      padd (.val 50) (pmul row.change_pct (.val 5)) ∧
    (row.change_pct = .val 12 →
      ((ai_diagnosis row hist).2.getD 4 ("", PFloat.nan)).2 = .val 110) ∧
    (row.change_pct = .val (-15) →
      ((ai_diagnosis row hist).2.getD 4 ("", PFloat.nan)).2 = .val (-25)) := by
  refine ⟨rfl, rfl, rfl, fun h => ?_, fun h => ?_⟩
  · simp [ai_diagnosis, h, padd, pmul]
    norm_num
  · simp [ai_diagnosis, h, padd, pmul]
    norm_num

/-- C5 witness: concrete quotes with change_pct = 12 and −15 produce
sentiment 110 and −25 respectively. -/
theorem composite_five_factor_mean_witness :
    ((ai_diagnosis ⟨.val 10, .val 12, .val 1⟩ []).2.getD 4 ("", PFloat.nan)).2 = .val 110 ∧
    ((ai_diagnosis ⟨.val 10, .val (-15), .val 1⟩ []).2.getD 4 ("", PFloat.nan)).2 = .val (-25) :=
  ⟨(composite_five_factor_mean ⟨.val 10, .val 12, .val 1⟩ []).2.2.2.1 rfl,
   (composite_five_factor_mean ⟨.val 10, .val (-15), .val 1⟩ []).2.2.2.2 rfl⟩

/-- One bar's indicator snapshot as the Signal Classifier sees it: the three
moving averages, `none` when the warm-up window is not yet full. -/
structure IndSnapshot where
  ma5 : Option ℚ
  ma10 : Option ℚ
  ma20 : Option ℚ

/-- The Signal Classifier's discrete trend verdicts. -/
inductive Verdict where
  | bullishCrossover : Verdict
  | uptrend : Verdict
  | bearishCrossover : Verdict
  | neutral : Verdict
deriving DecidableEq, Repr

/-- Modelled from the spec: the Signal Classifier of §4.2 is absent from
src/app.py (the source computes no MA10 and no crossover verdicts), so this
definition follows the spec text: four rules in fixed priority order, first
match wins — golden cross (prev.MA5 ≤ prev.MA10 and curr.MA5 > curr.MA10),
then bullish alignment (curr.MA5 > curr.MA10 > curr.MA20), then death cross
(prev.MA5 ≥ prev.MA10 and curr.MA5 < curr.MA10), else neutral; any undefined
MA value short-circuits to neutral, never raising. -/
def classify (prev curr : IndSnapshot) : Verdict :=
  match prev.ma5, prev.ma10, prev.ma20, curr.ma5, curr.ma10, curr.ma20 with
  | some p5, some p10, some _, some c5, some c10, some c20 =>
      if p5 ≤ p10 ∧ c5 > c10 then .bullishCrossover
      else if c5 > c10 ∧ c10 > c20 then .uptrend
      else if p5 ≥ p10 ∧ c5 < c10 then .bearishCrossover
      else .neutral
  | _, _, _, _, _, _ => .neutral

/-- C4: the classifier evaluates its four rules in fixed priority order with
first match winning — in particular a golden cross wins over bullish
alignment whenever both hold — and any null MA value yields neutral without
raising. -/
theorem classifier_priority (p5 p10 p20 c5 c10 c20 : ℚ) :
    (p5 ≤ p10 → c10 < c5 →
      classify ⟨some p5, some p10, some p20⟩ ⟨some c5, some c10, some c20⟩ = .bullishCrossover) ∧
    (¬(p5 ≤ p10 ∧ c10 < c5) → c10 < c5 → c20 < c10 →
      classify ⟨some p5, some p10, some p20⟩ ⟨some c5, some c10, some c20⟩ = .uptrend) ∧
    (¬(p5 ≤ p10 ∧ c10 < c5) → ¬(c10 < c5 ∧ c20 < c10) → p10 ≤ p5 → c5 < c10 →
      classify ⟨some p5, some p10, some p20⟩ ⟨some c5, some c10, some c20⟩ = .bearishCrossover) ∧
    (¬(p5 ≤ p10 ∧ c10 < c5) → ¬(c10 < c5 ∧ c20 < c10) → ¬(p10 ≤ p5 ∧ c5 < c10) →
      classify ⟨some p5, some p10, some p20⟩ ⟨some c5, some c10, some c20⟩ = .neutral) ∧
    (∀ pv cv : IndSnapshot,
      pv.ma5 = none ∨ pv.ma10 = none ∨ pv.ma20 = none ∨
        cv.ma5 = none ∨ cv.ma10 = none ∨ cv.ma20 = none →
      classify pv cv = .neutral) := by
  refine ⟨fun h1 h2 => ?_, fun hn h2 h3 => ?_, fun hn1 hn2 h3 h4 => ?_,
          fun hn1 hn2 hn3 => ?_, fun pv cv h => ?_⟩
  · simp [classify, h1, h2]
  · have h4 : ¬ p5 ≤ p10 := fun hle => hn ⟨hle, h2⟩
    simp [classify, h4, h2, h3]
  · have h5 : ¬ c10 < c5 := not_lt.2 h4.le
    simp [classify, h5, h3, h4]
  · simp [classify, hn1, hn2, hn3]
  · obtain ⟨a1, a2, a3⟩ := pv
    obtain ⟨b1, b2, b3⟩ := cv
    rcases a1 with _ | q1 <;> rcases a2 with _ | q2 <;> rcases a3 with _ | q3 <;>
      rcases b1 with _ | r1 <;> rcases b2 with _ | r2 <;> rcases b3 with _ | r3 <;>
      simp_all [classify]

/-- C4 witness: a snapshot pair where the golden-cross rule and the bullish
alignment both hold is classified as the crossover, and an all-null pair is
neutral. -/
theorem classifier_priority_witness :
    classify ⟨some 1, some 1, some 1⟩ ⟨some 3, some 2, some 1⟩ = .bullishCrossover ∧
    classify ⟨none, none, none⟩ ⟨none, none, none⟩ = .neutral :=
  ⟨(classifier_priority 1 1 1 3 2 1).1 (by norm_num) (by norm_num),
   (classifier_priority 0 0 0 0 0 0).2.2.2.2 ⟨none, none, none⟩ ⟨none, none, none⟩
     (Or.inl rfl)⟩

/-- The Recommendation record of §4.5. -/
structure Recommendation where
  action : String
  stop_loss : ℚ
  score : PFloat

/-- The risk tier (src/app.py:217): 高 (high) when the composite score is
below 40, 中 (medium) below 70, else 低 (low); a NaN score fails both
comparisons and lands on 低. -/
def risk_level (score : PFloat) : String :=
  if plt score (.val 40) then "高" else if plt score (.val 70) then "中" else "低"

/-- Modelled from the spec: the Recommendation Aggregator of §4.5.  It
receives the classifier verdict, the composite score with the day's change
(driving the action string through the advice thresholds that are present in
src/app.py, lines 229–235), and the derived risk tier; the stop_loss field
is absent from src, and §4.5 fixes it as `current_price × 0.95` (flat 5%
rule) regardless of every other factor. -/
def recommend (current_price : ℚ) (score change_pct : PFloat) (_verdict : Verdict)
    (_risk : String) : Recommendation :=
  { action := advice score change_pct
    stop_loss := current_price * (95 / 100)
    score := score }

/-- C8: every Recommendation carries stop_loss = current_price × 0.95
exactly, independent of the composite score, the day's change, the
classifier verdict, and the risk tier — in particular two scores falling in
different risk tiers still yield the same stop-loss. -/
theorem stop_loss_flat_rule (price : ℚ) (score change_pct : PFloat) (verdict : Verdict) :
    (recommend price score change_pct verdict (risk_level score)).stop_loss =
      price * (95 / 100) ∧
    (∀ (score2 change_pct2 : PFloat) (verdict2 : Verdict) (risk2 : String),
      (recommend price score change_pct verdict (risk_level score)).stop_loss =
        (recommend price score2 change_pct2 verdict2 risk2).stop_loss) ∧
    (∀ score2 : PFloat, risk_level score ≠ risk_level score2 →
      (recommend price score change_pct verdict (risk_level score)).stop_loss =
        (recommend price score2 change_pct verdict (risk_level score2)).stop_loss) :=
  ⟨rfl, fun _ _ _ _ => rfl, fun _ _ => rfl⟩

/-- C8 witness: on price 100, a score of 30 (risk tier 高) and a score of 80
(risk tier 低) fall in different tiers yet carry the identical stop-loss
100 × 0.95. -/
theorem stop_loss_flat_rule_witness :
    risk_level (.val 30) ≠ risk_level (.val 80) ∧
    (recommend 100 (.val 30) (.val 0) .neutral (risk_level (.val 30))).stop_loss =
      (recommend 100 (.val 80) (.val 0) .neutral (risk_level (.val 80))).stop_loss ∧
    (recommend 100 (.val 30) (.val 0) .neutral (risk_level (.val 30))).stop_loss =
      100 * (95 / 100) :=
  ⟨by with_unfolding_all decide,
   (stop_loss_flat_rule 100 (.val 30) (.val 0) .neutral).2.2 (.val 80)
     (by with_unfolding_all decide),
   (stop_loss_flat_rule 100 (.val 30) (.val 0) .neutral).1⟩

/-- A 19-bar close series (shorter than the 20-bar MA20 window). -/
def shortSeries : List ℚ :=
  [10, 11, 10, 11, 10, 11, 10, 11, 10, 11, 10, 11, 10, 11, 10, 11, 10, 11, 10]

/-- C2 (code-bug evidence): on a 19-bar series the pipeline emits ordinary
numeric outputs — composite score 60 (a numeric value, not an
insufficient-data state), trend factor 50, backtest total_return 0 — and the
advice falls through the numeric thresholds to plain 观望 (watch), with no
insufficient-history marker anywhere. -/
theorem short_series_numeric_outputs :
    shortSeries.length = 19 ∧
    (ai_diagnosis ⟨.val 10, .val 0, .val 1⟩ (calculate_indicators (mkDF shortSeries))).1 =
      .val 60 ∧
    ((ai_diagnosis ⟨.val 10, .val 0, .val 1⟩
        (calculate_indicators (mkDF shortSeries))).2.getD 1 ("", PFloat.nan)).2 = .val 50 ∧
    (run_simple_backtest (calculate_indicators (mkDF shortSeries))).1 = .val 0 ∧
    advice (.val 60) (.val 0) = "观望" := by with_unfolding_all decide

theorem foldl_padd_val (qs : List ℚ) (a : ℚ) :
    (qs.map PFloat.val).foldl padd (.val a) = .val (a + qs.sum) := by
  induction qs generalizing a with
  | nil => simp
  | cons q t ih =>
      simp only [List.map_cons, List.foldl_cons, List.sum_cons]
      rw [show padd (PFloat.val a) (PFloat.val q) = PFloat.val (a + q) from rfl, ih, add_assoc]

theorem length_rollingMean (k : ℕ) (xs : Column) : (rollingMean k xs).length = xs.length := by
  simp [rollingMean]

theorem rollingMean_map_val (k : ℕ) (hk : k ≠ 0) (c : List ℚ) (i : ℕ) (hi : i < c.length) :
    (rollingMean k (List.map PFloat.val c))[i]? =
      some (if i + 1 < k then PFloat.nan
            else PFloat.val (((c.drop (i + 1 - k)).take k).sum / (k : ℚ))) := by
  rw [rollingMean, List.length_map, List.getElem?_map, List.getElem?_range hi,
      Option.map_some']
  by_cases h : i + 1 < k
  · simp [h]
  · simp only [h, if_false]
    rw [← List.map_drop, ← List.map_take, foldl_padd_val, zero_add]
    have hkq : ((k : ℚ)) ≠ 0 := Nat.cast_ne_zero.2 hk
    simp [pdiv, hkq]

/-- C6 (amended): on a nonempty series the indicator calculator produces only
the moving averages MA5 and MA20 (there is no MA10), each a column of the
series length whose value at position i is null exactly when i < k−1 and the
trailing k-bar mean of close otherwise. -/
theorem ma_columns (c : List ℚ) (hc : c ≠ []) :
    (getCol (calculate_indicators (mkDF c)) "MA5" = rollingMean 5 (List.map PFloat.val c) ∧
     (rollingMean 5 (List.map PFloat.val c)).length = c.length ∧
     ∀ i, i < c.length →
       (i < 4 → (rollingMean 5 (List.map PFloat.val c))[i]? = some PFloat.nan) ∧
       (4 ≤ i → (rollingMean 5 (List.map PFloat.val c))[i]? =
          some (PFloat.val (((c.drop (i - 4)).take 5).sum / 5)))) ∧
    (getCol (calculate_indicators (mkDF c)) "MA20" = rollingMean 20 (List.map PFloat.val c) ∧
     (rollingMean 20 (List.map PFloat.val c)).length = c.length ∧
     ∀ i, i < c.length →
       (i < 19 → (rollingMean 20 (List.map PFloat.val c))[i]? = some PFloat.nan) ∧
       (19 ≤ i → (rollingMean 20 (List.map PFloat.val c))[i]? =
          some (PFloat.val (((c.drop (i - 19)).take 20).sum / 20)))) := by
  obtain ⟨a, s, rfl⟩ : ∃ a s, c = a :: s := by
    cases c with
    | nil => exact absurd rfl hc
    | cons a s => exact ⟨a, s, rfl⟩
  refine ⟨⟨rfl, by rw [length_rollingMean, List.length_map],
            fun i hi => ⟨fun h4 => ?_, fun h4 => ?_⟩⟩,
          ⟨rfl, by rw [length_rollingMean, List.length_map],
            fun i hi => ⟨fun h4 => ?_, fun h4 => ?_⟩⟩⟩
  · rw [rollingMean_map_val 5 (by norm_num) _ i hi]
    simp [show i + 1 < 5 from by omega]
  · rw [rollingMean_map_val 5 (by norm_num) _ i hi]
    rw [show i + 1 - 5 = i - 4 from by omega]
    simp [show ¬ (i + 1 < 5) from by omega]
  · rw [rollingMean_map_val 20 (by norm_num) _ i hi]
    simp [show i + 1 < 20 from by omega]
  · rw [rollingMean_map_val 20 (by norm_num) _ i hi]
    rw [show i + 1 - 20 = i - 19 from by omega]
    simp [show ¬ (i + 1 < 20) from by omega]

/-- The spec §8 test scenario: nineteen flat closes at 10 and a final jump
to 12. -/
def scen : List ℚ :=
  [10, 10, 10, 10, 10, 10, 10, 10, 10, 10, 10, 10, 10, 10, 10, 10, 10, 10, 10, 12]

/-- C6 witness: on the spec scenario the final-bar values are
MA20 = 10.1 and MA5 = 10.4. -/
theorem ma_columns_witness :
    (scen ≠ []) ∧
    (rollingMean 20 (List.map PFloat.val scen))[19]? =
      some (PFloat.val (((scen.drop 0).take 20).sum / 20)) ∧
    (rollingMean 5 (List.map PFloat.val scen))[19]? =
      some (PFloat.val (((scen.drop 15).take 5).sum / 5)) ∧
    ((scen.drop 0).take 20).sum / 20 = (101 / 10 : ℚ) ∧
    ((scen.drop 15).take 5).sum / 5 = (52 / 5 : ℚ) := by
  refine ⟨by decide, ?_, ?_, by with_unfolding_all decide, by with_unfolding_all decide⟩
  · exact ((ma_columns scen (by decide)).2.2.2 19 (by decide)).2 (by norm_num)
  · exact ((ma_columns scen (by decide)).1.2.2 19 (by decide)).2 (by norm_num)

theorem getElem?_zipWith {α β γ : Type} (f : α → β → γ) (xs : List α) (ys : List β) (i : ℕ) :
    (List.zipWith f xs ys)[i]? = xs[i]?.bind fun a => ys[i]?.map (f a) := by
  induction xs generalizing ys i with
  | nil => simp
  | cons x xt ih =>
      cases ys with
      | nil => simp
      | cons y yt =>
          cases i with
          | zero => simp
          | succ n => simpa using ih yt n

theorem map_val_getD (c : List ℚ) (j : ℕ) (hj : j < c.length) :
    (List.map PFloat.val c).getD j PFloat.nan = PFloat.val (c.getD j 0) := by
  rw [List.getD_eq_getElem?_getD, List.getD_eq_getElem?_getD, List.getElem?_map,
      List.getElem?_eq_getElem hj]
  rfl

theorem psub_val (a b : ℚ) : psub (.val a) (.val b) = .val (a - b) := by
  simp [psub, padd, pneg, sub_eq_add_neg]

theorem length_diffSeries (xs : Column) : (diffSeries xs).length = xs.length := by
  rw [diffSeries, List.length_map, List.length_range]

theorem length_gainCells (xs : Column) : (gainCells xs).length = xs.length := by
  rw [gainCells, List.length_map]

theorem length_lossCells (xs : Column) : (lossCells xs).length = xs.length := by
  rw [lossCells, List.length_map, List.length_map]

theorem gainCells_sdiff_getElem (c : List ℚ) (i : ℕ) (hi : i < c.length) :
    ∃ q : ℚ, (gainCells (diffSeries (List.map PFloat.val c)))[i]? = some (PFloat.val q) ∧ 0 ≤ q := by
  rw [gainCells, List.getElem?_map, diffSeries, List.getElem?_map, List.length_map,
      List.getElem?_range hi, Option.map_some', Option.map_some']
  rcases Nat.eq_zero_or_pos i with h0 | hpos
  · subst h0
    exact ⟨0, rfl, le_rfl⟩
  · have hne : i ≠ 0 := hpos.ne'
    rw [if_neg hne, map_val_getD c i hi,
        map_val_getD c (i - 1) (lt_of_le_of_lt (Nat.sub_le i 1) hi), psub_val]
    by_cases hgt : (0 : ℚ) < c.getD i 0 - c.getD (i - 1) 0
    · refine ⟨c.getD i 0 - c.getD (i - 1) 0, ?_, hgt.le⟩
      rw [if_pos (show pgt (PFloat.val (c.getD i 0 - c.getD (i - 1) 0)) (PFloat.val 0) = true
            from decide_eq_true hgt)]
    · refine ⟨0, ?_, le_rfl⟩
      rw [if_neg (show ¬ pgt (PFloat.val (c.getD i 0 - c.getD (i - 1) 0)) (PFloat.val 0) = true
            from fun h => hgt (of_decide_eq_true h))]

theorem lossCells_sdiff_getElem (c : List ℚ) (i : ℕ) (hi : i < c.length) :
    ∃ q : ℚ, (lossCells (diffSeries (List.map PFloat.val c)))[i]? = some (PFloat.val q) ∧ 0 ≤ q := by
  rw [lossCells, List.getElem?_map, List.getElem?_map, diffSeries, List.getElem?_map,
      List.length_map, List.getElem?_range hi, Option.map_some', Option.map_some',
      Option.map_some']
  rcases Nat.eq_zero_or_pos i with h0 | hpos
  · subst h0
    exact ⟨0, rfl, le_rfl⟩
  · have hne : i ≠ 0 := hpos.ne'
    rw [if_neg hne, map_val_getD c i hi,
        map_val_getD c (i - 1) (lt_of_le_of_lt (Nat.sub_le i 1) hi), psub_val]
    by_cases hlt : c.getD i 0 - c.getD (i - 1) 0 < 0
    · refine ⟨-(c.getD i 0 - c.getD (i - 1) 0), ?_, by linarith⟩
      rw [if_pos (show plt (PFloat.val (c.getD i 0 - c.getD (i - 1) 0)) (PFloat.val 0) = true
            from decide_eq_true hlt)]
      rfl
    · refine ⟨0, ?_, le_rfl⟩
      rw [if_neg (show ¬ plt (PFloat.val (c.getD i 0 - c.getD (i - 1) 0)) (PFloat.val 0) = true
            from fun h => hlt (of_decide_eq_true h))]
      rw [show pneg (PFloat.val 0) = PFloat.val (-0) from rfl, neg_zero]

theorem gain_entry_nonneg (c : List ℚ) :
    ∀ x ∈ gainCells (diffSeries (List.map PFloat.val c)),
      ∃ q : ℚ, x = PFloat.val q ∧ 0 ≤ q := by
  intro x hx
  obtain ⟨i, hi, hget⟩ := List.getElem_of_mem hx
  have hlen : i < c.length := by
    rw [length_gainCells, length_diffSeries, List.length_map] at hi
    exact hi
  obtain ⟨q, hq, hq0⟩ := gainCells_sdiff_getElem c i hlen
  rw [List.getElem?_eq_getElem hi, hget] at hq
  exact ⟨q, by injection hq, hq0⟩

theorem loss_entry_nonneg (c : List ℚ) :
    ∀ x ∈ lossCells (diffSeries (List.map PFloat.val c)),
      ∃ q : ℚ, x = PFloat.val q ∧ 0 ≤ q := by
  intro x hx
  obtain ⟨i, hi, hget⟩ := List.getElem_of_mem hx
  have hlen : i < c.length := by
    rw [length_lossCells, length_diffSeries, List.length_map] at hi
    exact hi
  obtain ⟨q, hq, hq0⟩ := lossCells_sdiff_getElem c i hlen
  rw [List.getElem?_eq_getElem hi, hget] at hq
  exact ⟨q, by injection hq, hq0⟩

theorem foldl_padd_nonneg (ws : Column) :
    (∀ x ∈ ws, ∃ q : ℚ, x = PFloat.val q ∧ 0 ≤ q) →
    ∀ a : ℚ, 0 ≤ a → ∃ s : ℚ, ws.foldl padd (.val a) = .val s ∧ 0 ≤ s := by
  induction ws with
  | nil => exact fun _ a ha => ⟨a, rfl, ha⟩
  | cons x t ih =>
      intro hws a ha
      obtain ⟨q, hx, hq⟩ := hws x (List.mem_cons_self x t)
      subst hx
      rw [List.foldl_cons,
          show padd (PFloat.val a) (PFloat.val q) = PFloat.val (a + q) from rfl]
      exact ih (fun y hy => hws y (List.mem_cons_of_mem _ hy)) (a + q) (add_nonneg ha hq)

theorem rollingMean_entry_nonneg (k : ℕ) (hk : k ≠ 0) (xs : Column)
    (hxs : ∀ x ∈ xs, ∃ q : ℚ, x = PFloat.val q ∧ 0 ≤ q) (j : ℕ) (q : ℚ)
    (hj : (rollingMean k xs)[j]? = some (PFloat.val q)) : 0 ≤ q := by
  rcases Nat.lt_or_ge j xs.length with hlen | hlen
  · rw [rollingMean, List.getElem?_map, List.getElem?_range hlen, Option.map_some'] at hj
    by_cases hk1 : j + 1 < k
    · simp [hk1] at hj
    · simp only [hk1, if_false] at hj
      have hwin : ∀ x ∈ (xs.drop (j + 1 - k)).take k, ∃ r : ℚ, x = PFloat.val r ∧ 0 ≤ r :=
        fun x hx => hxs x (List.mem_of_mem_drop (List.mem_of_mem_take hx))
      obtain ⟨s, hs, hs0⟩ := foldl_padd_nonneg _ hwin 0 le_rfl
      rw [hs] at hj
      have hk0 : ((k : ℚ)) ≠ 0 := Nat.cast_ne_zero.2 hk
      simp only [pdiv, if_neg hk0] at hj
      have h2 : s / (k : ℚ) = q := PFloat.val.inj (Option.some.inj hj)
      rw [← h2]
      exact div_nonneg hs0 (Nat.cast_nonneg k)
  · exfalso
    have hnone : (rollingMean k xs)[j]? = none := by
      rw [List.getElem?_eq_none_iff, length_rollingMean]
      exact hlen
    rw [hnone] at hj
    exact Option.noConfusion hj

theorem rsiOf_getElem (cc : Column) (j : ℕ) (g l : PFloat)
    (hg : (gainOf cc)[j]? = some g) (hl : (lossOf cc)[j]? = some l) :
    (rsiOf cc)[j]? =
      some (psub (.val 100) (pdiv (.val 100) (padd (.val 1) (pdiv g l)))) := by
  rw [rsiOf, List.getElem?_map, rsOf, getElem?_zipWith, hg, hl]
  rfl

/-- C3 (amended): whenever the 14-bar gain and loss averages are defined at
position j, then (a) if the average loss is nonzero, RSI is a value in
[0,100]; (b) if the average loss is zero but the average gain is positive,
RSI is exactly 100 (the division by zero yields +∞ and 100 − 100/(1+∞) = 100);
(c) if both averages are zero (a flat window), RSI is NaN — in every case a
reported cell value, never a runtime division fault. -/
theorem rsi_bounds (c : List ℚ) (j : ℕ) (g l : ℚ)
    (hj : j < c.length)
    (hg : (gainOf (List.map PFloat.val c))[j]? = some (.val g))
    (hl : (lossOf (List.map PFloat.val c))[j]? = some (.val l)) :
    (l ≠ 0 → ∃ r : ℚ, (getCol (calculate_indicators (mkDF c)) "RSI")[j]? = some (.val r) ∧
       0 ≤ r ∧ r ≤ 100) ∧
    (l = 0 → 0 < g → (getCol (calculate_indicators (mkDF c)) "RSI")[j]? = some (.val 100)) ∧
    (l = 0 → g = 0 → (getCol (calculate_indicators (mkDF c)) "RSI")[j]? = some PFloat.nan) := by
  obtain ⟨a, s, rfl⟩ : ∃ a s, c = a :: s := by
    cases c with
    | nil => exact absurd hj (by simp)
    | cons a s => exact ⟨a, s, rfl⟩
  have hcol : getCol (calculate_indicators (mkDF (a :: s))) "RSI" =
      rsiOf (List.map PFloat.val (a :: s)) := by
    rw [calc_mkDF]; rfl
  have hg0 : 0 ≤ g :=
    rollingMean_entry_nonneg 14 (by norm_num) _ (gain_entry_nonneg (a :: s)) j g hg
  have hl0 : 0 ≤ l :=
    rollingMean_entry_nonneg 14 (by norm_num) _ (loss_entry_nonneg (a :: s)) j l hl
  have hcell := rsiOf_getElem (List.map PFloat.val (a :: s)) j (.val g) (.val l) hg hl
  refine ⟨fun hl1 => ?_, fun hl1 hg1 => ?_, fun hl1 hg1 => ?_⟩
  · have hlpos : 0 < l := lt_of_le_of_ne hl0 (Ne.symm hl1)
    have hgl : (0 : ℚ) ≤ g / l := div_nonneg hg0 hl0
    have hd : (1 : ℚ) + g / l ≠ 0 := by positivity
    refine ⟨100 - 100 / (1 + g / l), ?_, ?_, ?_⟩
    · rw [hcol, hcell]
      rw [show pdiv (PFloat.val g) (PFloat.val l) = PFloat.val (g / l) from by
            simp [pdiv, hl1],
          show padd (PFloat.val 1) (PFloat.val (g / l)) = PFloat.val (1 + g / l) from rfl,
          show pdiv (PFloat.val 100) (PFloat.val (1 + g / l)) =
              PFloat.val (100 / (1 + g / l)) from by simp [pdiv, hd],
          psub_val]
    · have h100 : 100 / (1 + g / l) ≤ 100 :=
        div_le_self (by norm_num) (by linarith)
      linarith
    · have hpos : (0 : ℚ) < 100 / (1 + g / l) := by positivity
      linarith
  · subst hl1
    rw [hcol, hcell]
    rw [show pdiv (PFloat.val g) (PFloat.val 0) = PFloat.inf true from by
          simp [pdiv, hg1.ne', hg1],
        show padd (PFloat.val 1) (PFloat.inf true) = PFloat.inf true from rfl,
        show pdiv (PFloat.val 100) (PFloat.inf true) = PFloat.val 0 from rfl,
        psub_val, sub_zero]
  · subst hl1; subst hg1
    rw [hcol, hcell]
    rfl

/-- A flat 15-bar close series: every delta is zero. -/
def flatSeries : List ℚ :=
  [10, 10, 10, 10, 10, 10, 10, 10, 10, 10, 10, 10, 10, 10, 10]

/-- C3 counterexample: on a flat series the 14-bar average loss is exactly 0,
yet RSI at the last bar is NaN (0/0 gives NaN, and NaN propagates), not the
claimed 100. -/
theorem rsi_flat_not_hundred :
    (lossOf (List.map PFloat.val flatSeries))[14]? = some (PFloat.val 0) ∧
    (getCol (calculate_indicators (mkDF flatSeries)) "RSI")[14]? = some PFloat.nan ∧
    (some PFloat.nan ≠ some (PFloat.val 100)) := by with_unfolding_all decide

/-- A 14-bar alternating series: both gains and losses are present in the
14-bar window ending at the last bar. -/
def alt14 : List ℚ := [10, 11, 10, 11, 10, 11, 10, 11, 10, 11, 10, 11, 10, 11]

/-- C3 witness: on the alternating series the average gain at bar 13 is 1/2,
the average loss 3/7 ≠ 0, and RSI lies in [0,100]. -/
theorem rsi_bounds_witness :
    (13 < alt14.length) ∧
    (gainOf (List.map PFloat.val alt14))[13]? = some (PFloat.val (1 / 2)) ∧
    (lossOf (List.map PFloat.val alt14))[13]? = some (PFloat.val (3 / 7)) ∧
    (∃ r : ℚ, (getCol (calculate_indicators (mkDF alt14)) "RSI")[13]? =
        some (PFloat.val r) ∧ 0 ≤ r ∧ r ≤ 100) :=
  ⟨by decide, by with_unfolding_all decide, by with_unfolding_all decide,
   (rsi_bounds alt14 13 (1 / 2) (3 / 7) (by decide) (by with_unfolding_all decide)
      (by with_unfolding_all decide)).1 (by norm_num)⟩

theorem length_pctChange (xs : Column) : (pctChange xs).length = xs.length := by
  rw [pctChange, List.length_map, List.length_range]

theorem length_shift1 (xs : Column) : (shift1 xs).length = xs.length := by
  rw [shift1, List.length_map, List.length_range]

theorem length_signalOf (cc : Column) : (signalOf cc).length = cc.length := by
  rw [signalOf, signalCells, List.length_zipWith, length_rollingMean, length_rollingMean,
      Nat.min_self]

theorem getElem?_rollingMean (k : ℕ) (xs : Column) (i : ℕ) (hi : i < xs.length) :
    (rollingMean k xs)[i]? =
      some (if i + 1 < k then PFloat.nan
            else pdiv (((xs.drop (i + 1 - k)).take k).foldl padd (.val 0)) (.val (k : ℚ))) := by
  rw [rollingMean, List.getElem?_map, List.getElem?_range hi]
  rfl

theorem getElem?_pctChange (xs : Column) (i : ℕ) (hi : i < xs.length) :
    (pctChange xs)[i]? =
      some (if i = 0 then PFloat.nan
            else pdiv (psub (xs.getD i .nan) (xs.getD (i - 1) .nan)) (xs.getD (i - 1) .nan)) := by
  rw [pctChange, List.getElem?_map, List.getElem?_range hi]
  rfl

theorem getElem?_shift1 (xs : Column) (i : ℕ) (hi : i < xs.length) :
    (shift1 xs)[i]? =
      some (if i = 0 then PFloat.nan else xs.getD (i - 1) PFloat.nan) := by
  rw [shift1, List.getElem?_map, List.getElem?_range hi]
  rfl

theorem rollingMean_stable (k m : ℕ) (xs ys : Column) (hlen : xs.length = ys.length)
    (hpt : ∀ t, t < m → xs[t]? = ys[t]?) (i : ℕ) (him : i < m) :
    (rollingMean k xs)[i]? = (rollingMean k ys)[i]? := by
  rcases Nat.lt_or_ge i xs.length with hi | hi
  · rw [getElem?_rollingMean k xs i hi, getElem?_rollingMean k ys i (hlen ▸ hi)]
    by_cases hik : i + 1 < k
    · simp [hik]
    · simp only [hik, if_false]
      have hwin : (xs.drop (i + 1 - k)).take k = (ys.drop (i + 1 - k)).take k := by
        apply List.ext_getElem?
        intro n
        rcases Nat.lt_or_ge n k with hn | hn
        · rw [List.getElem?_take_of_lt hn, List.getElem?_take_of_lt hn,
              List.getElem?_drop, List.getElem?_drop]
          exact hpt _ (by omega)
        · rw [List.getElem?_eq_none_iff.2, List.getElem?_eq_none_iff.2]
          · rw [List.length_take]; exact le_trans (Nat.min_le_left _ _) hn
          · rw [List.length_take]; exact le_trans (Nat.min_le_left _ _) hn
      rw [hwin]
  · have h1 : (rollingMean k xs)[i]? = none := by
      rw [List.getElem?_eq_none_iff, length_rollingMean]; exact hi
    have h2 : (rollingMean k ys)[i]? = none := by
      rw [List.getElem?_eq_none_iff, length_rollingMean]; exact hlen ▸ hi
    rw [h1, h2]

theorem pctChange_stable (m : ℕ) (xs ys : Column) (hlen : xs.length = ys.length)
    (hpt : ∀ t, t < m → xs[t]? = ys[t]?) (i : ℕ) (him : i < m) :
    (pctChange xs)[i]? = (pctChange ys)[i]? := by
  rcases Nat.lt_or_ge i xs.length with hi | hi
  · rw [getElem?_pctChange xs i hi, getElem?_pctChange ys i (hlen ▸ hi)]
    by_cases h0 : i = 0
    · simp [h0]
    · simp only [h0, if_false]
      have e1 : xs.getD i PFloat.nan = ys.getD i PFloat.nan := by
        rw [List.getD_eq_getElem?_getD, List.getD_eq_getElem?_getD, hpt i him]
      have e2 : xs.getD (i - 1) PFloat.nan = ys.getD (i - 1) PFloat.nan := by
        rw [List.getD_eq_getElem?_getD, List.getD_eq_getElem?_getD, hpt (i - 1) (by omega)]
      rw [e1, e2]
  · have h1 : (pctChange xs)[i]? = none := by
      rw [List.getElem?_eq_none_iff, length_pctChange]; exact hi
    have h2 : (pctChange ys)[i]? = none := by
      rw [List.getElem?_eq_none_iff, length_pctChange]; exact hlen ▸ hi
    rw [h1, h2]

theorem shift1_stable (m : ℕ) (xs ys : Column) (hlen : xs.length = ys.length)
    (hpt : ∀ t, t < m → xs[t]? = ys[t]?) (i : ℕ) (him : i < m) :
    (shift1 xs)[i]? = (shift1 ys)[i]? := by
  rcases Nat.lt_or_ge i xs.length with hi | hi
  · rw [getElem?_shift1 xs i hi, getElem?_shift1 ys i (hlen ▸ hi)]
    by_cases h0 : i = 0
    · simp [h0]
    · simp only [h0, if_false]
      rw [List.getD_eq_getElem?_getD, List.getD_eq_getElem?_getD, hpt (i - 1) (by omega)]
  · have h1 : (shift1 xs)[i]? = none := by
      rw [List.getElem?_eq_none_iff, length_shift1]; exact hi
    have h2 : (shift1 ys)[i]? = none := by
      rw [List.getElem?_eq_none_iff, length_shift1]; exact hlen ▸ hi
    rw [h1, h2]

theorem signalOf_stable (m : ℕ) (cc1 cc2 : Column) (hlen : cc1.length = cc2.length)
    (hpt : ∀ t, t < m → cc1[t]? = cc2[t]?) (i : ℕ) (him : i < m) :
    (signalOf cc1)[i]? = (signalOf cc2)[i]? := by
  rw [signalOf, signalOf, signalCells, signalCells, getElem?_zipWith, getElem?_zipWith,
      rollingMean_stable 5 m cc1 cc2 hlen hpt i him,
      rollingMean_stable 20 m cc1 cc2 hlen hpt i him]

theorem strategyOf_stable (m : ℕ) (cc1 cc2 : Column) (hlen : cc1.length = cc2.length)
    (hpt : ∀ t, t < m → cc1[t]? = cc2[t]?) (i : ℕ) (him : i < m) :
    (strategyOf cc1)[i]? = (strategyOf cc2)[i]? := by
  rw [strategyOf, strategyOf, getElem?_zipWith, getElem?_zipWith,
      pctChange_stable m cc1 cc2 hlen hpt i him,
      shift1_stable m (signalOf cc1) (signalOf cc2)
        (by rw [length_signalOf, length_signalOf, hlen])
        (fun t ht => signalOf_stable m cc1 cc2 hlen hpt t ht) i him]

theorem cumprodGo_stable (acc : PFloat) (m : ℕ) (xs ys : Column)
    (hpt : ∀ t, t < m → xs[t]? = ys[t]?) (i : ℕ) (him : i < m) :
    (cumprodGo acc xs)[i]? = (cumprodGo acc ys)[i]? := by
  induction xs generalizing ys acc m i with
  | nil =>
      cases ys with
      | nil => rfl
      | cons y yt => exact absurd (hpt 0 (by omega)) (by simp)
  | cons x xt ih =>
      cases ys with
      | nil => exact absurd (hpt 0 (by omega)) (by simp)
      | cons y yt =>
          have hxy : x = y := by
            have h0 := hpt 0 (by omega)
            simpa using h0
          subst hxy
          have hpt2 : ∀ t, t < m - 1 → xt[t]? = yt[t]? := by
            intro t ht
            have h2 := hpt (t + 1) (by omega)
            simpa using h2
          cases i with
          | zero => by_cases h : x = .nan <;> simp [cumprodGo, h]
          | succ n =>
              by_cases h : x = .nan
              · simp only [cumprodGo, if_pos h, List.getElem?_cons_succ]
                exact ih acc (m - 1) yt hpt2 n (by omega)
              · simp only [cumprodGo, if_neg h, List.getElem?_cons_succ]
                exact ih (pmul acc x) (m - 1) yt hpt2 n (by omega)

theorem cumReturnOf_stable (m : ℕ) (cc1 cc2 : Column) (hlen : cc1.length = cc2.length)
    (hpt : ∀ t, t < m → cc1[t]? = cc2[t]?) (i : ℕ) (him : i < m) :
    (cumReturnOf cc1)[i]? = (cumReturnOf cc2)[i]? := by
  rw [cumReturnOf, cumReturnOf, cumprod, cumprod]
  apply cumprodGo_stable _ m _ _ _ i him
  intro u hu
  rw [List.getElem?_map, List.getElem?_map, strategyOf_stable m cc1 cc2 hlen hpt u hu]

theorem signalOf_getD (cc : Column) (u : ℕ) (hu : u < cc.length) :
    (signalOf cc).getD u PFloat.nan =
      if pgt ((rollingMean 5 cc).getD u PFloat.nan) ((rollingMean 20 cc).getD u PFloat.nan)
      then PFloat.val 1 else PFloat.val 0 := by
  rw [List.getD_eq_getElem?_getD, signalOf, signalCells, getElem?_zipWith,
      getElem?_rollingMean 5 cc u hu, getElem?_rollingMean 20 cc u hu,
      List.getD_eq_getElem?_getD, List.getD_eq_getElem?_getD,
      getElem?_rollingMean 5 cc u hu, getElem?_rollingMean 20 cc u hu]
  rfl

/-- C1: the backtest is look-ahead-safe.  (a) The strategy return at bar j
is the close-price percent change from bar j−1 to bar j multiplied by the
position signal computed from bar j−1's MA5/MA20.  (b) Two runs on close
series that agree through bar i produce equal cumulative strategy-return
curves through bar i: perturbing closes after bar i cannot change them. -/
theorem backtest_no_lookahead (c1 c2 : List ℚ) (i : ℕ)
    (hlen : c1.length = c2.length)
    (hpre : List.take (i + 1) c1 = List.take (i + 1) c2) :
    (∀ j, 1 ≤ j → j < c1.length →
      (getCol (run_simple_backtest (calculate_indicators (mkDF c1))).2 "strategy_return")[j]? =
        some (pmul
          (pdiv (psub (PFloat.val (c1.getD j 0)) (PFloat.val (c1.getD (j - 1) 0)))
            (PFloat.val (c1.getD (j - 1) 0)))
          (if pgt ((rollingMean 5 (List.map PFloat.val c1)).getD (j - 1) PFloat.nan)
                ((rollingMean 20 (List.map PFloat.val c1)).getD (j - 1) PFloat.nan)
             then PFloat.val 1 else PFloat.val 0))) ∧
    List.take (i + 1)
        (getCol (run_simple_backtest (calculate_indicators (mkDF c1))).2 "cum_return") =
      List.take (i + 1)
        (getCol (run_simple_backtest (calculate_indicators (mkDF c2))).2 "cum_return") := by
  constructor
  · intro j hj1 hj2
    obtain ⟨a, s, rfl⟩ : ∃ a s, c1 = a :: s := by
      cases c1 with
      | nil => exact absurd hj2 (by simp)
      | cons a s => exact ⟨a, s, rfl⟩
    have hj0 : j ≠ 0 := Nat.one_le_iff_ne_zero.1 hj1
    have hjm : j < (List.map PFloat.val (a :: s)).length := by
      rw [List.length_map]; exact hj2
    have hjm1 : j - 1 < (List.map PFloat.val (a :: s)).length := by
      rw [List.length_map]; omega
    have hsig : j < (signalOf (List.map PFloat.val (a :: s))).length := by
      rw [length_signalOf]; exact hjm
    rw [backtest_mkDF_strategy, strategyOf, getElem?_zipWith,
        getElem?_pctChange _ j hjm, getElem?_shift1 _ j hsig]
    simp only [Option.some_bind, Option.map_some', if_neg hj0]
    rw [map_val_getD (a :: s) j hj2, map_val_getD (a :: s) (j - 1) (by omega),
        signalOf_getD (List.map PFloat.val (a :: s)) (j - 1) hjm1]
  · rcases c1 with _ | ⟨a, s⟩
    · have hc2 : c2 = [] := by
        cases c2 with
        | nil => rfl
        | cons b u => exact absurd hlen (by simp)
      subst hc2
      rfl
    · rcases c2 with _ | ⟨b, u⟩
      · exact absurd hlen (by simp)
      · rw [backtest_mkDF_cum a s, backtest_mkDF_cum b u]
        apply List.ext_getElem?
        intro n
        rcases Nat.lt_or_ge n (i + 1) with hn | hn
        · rw [List.getElem?_take_of_lt hn, List.getElem?_take_of_lt hn]
          apply cumReturnOf_stable (i + 1) _ _
              (by rw [List.length_map, List.length_map]; exact hlen) ?_ n hn
          intro v hv
          rw [List.getElem?_map, List.getElem?_map]
          have hcv : (a :: s)[v]? = (b :: u)[v]? := by
            have h3 := congrArg (fun l => l[v]?) hpre
            simp only [List.getElem?_take_of_lt hv] at h3
            exact h3
          rw [hcv]
        · rw [List.getElem?_eq_none_iff.2, List.getElem?_eq_none_iff.2]
          · rw [List.length_take]; exact le_trans (Nat.min_le_left _ _) hn
          · rw [List.length_take]; exact le_trans (Nat.min_le_left _ _) hn

/-- C1 witness: two three-bar series agreeing on the first two closes but
differing at the third have equal cumulative curves through bar 1, and the
bar-2 strategy return has the lagged-signal form. -/
theorem backtest_no_lookahead_witness :
    List.take 2 [(1 : ℚ), 2, 3] = List.take 2 [(1 : ℚ), 2, 4] ∧
    (getCol (run_simple_backtest (calculate_indicators (mkDF [(1 : ℚ), 2, 3]))).2
        "strategy_return")[2]? =
      some (pmul
        (pdiv (psub (PFloat.val ([(1 : ℚ), 2, 3].getD 2 0))
            (PFloat.val ([(1 : ℚ), 2, 3].getD 1 0)))
          (PFloat.val ([(1 : ℚ), 2, 3].getD 1 0)))
        (if pgt ((rollingMean 5 (List.map PFloat.val [(1 : ℚ), 2, 3])).getD 1 PFloat.nan)
              ((rollingMean 20 (List.map PFloat.val [(1 : ℚ), 2, 3])).getD 1 PFloat.nan)
           then PFloat.val 1 else PFloat.val 0)) ∧
    List.take 2
        (getCol (run_simple_backtest (calculate_indicators (mkDF [(1 : ℚ), 2, 3]))).2
          "cum_return") =
      List.take 2
        (getCol (run_simple_backtest (calculate_indicators (mkDF [(1 : ℚ), 2, 4]))).2
          "cum_return") :=
  ⟨by decide,
   (backtest_no_lookahead [(1 : ℚ), 2, 3] [(1 : ℚ), 2, 4] 1 (by decide) (by decide)).1 2
     (by norm_num) (by decide),
   (backtest_no_lookahead [(1 : ℚ), 2, 3] [(1 : ℚ), 2, 4] 1 (by decide) (by decide)).2⟩
